import Mathlib

/-!
Verification development for the Halide multi-target module assembly and
code emission pipeline (Module linking, `build_multitarget_module`, and the
output driver).  The definitions below are a shallow embedding of the
C++ source: `link_modules`, `Module::append`/`appendf`, `Module::compile`
and `build_multitarget_module` from the Module implementation, and
`compile_module_to_outputs` from Output.cpp.  Types that the excerpt only
uses through their interface (Target's feature set, the IR expression and
statement constructors, the LLVM backend) are modelled from the spec and
marked as such in their doc comments.
-/

namespace Halide

/-- Modelled from the spec: a Target is an immutable value
`(operating_system, architecture, bit_width, feature_set)`; the concrete
`Target` struct is outside the excerpt.  OS and architecture enumerations
are coded as naturals, and the feature set as a bitmask over the closed
feature enumeration (one bit per `Target::Feature` index). -/
structure Target where
  os : Nat
  arch : Nat
  bits : Nat
  features : Nat
deriving DecidableEq

/-- Modelled from the spec: code for the `Target::JIT` feature in the closed
feature enumeration. -/
def Target.JIT : Nat := 0

/-- Modelled from the spec: code for `Target::NoRuntime`. -/
def Target.NoRuntime : Nat := 1

/-- Modelled from the spec: code for `Target::UserContext`. -/
def Target.UserContext : Nat := 2

/-- Modelled from the spec: code for `Target::CPlusPlusMangling`. -/
def Target.CPlusPlusMangling : Nat := 3

/-- Modelled from the spec: code for `Target::RegisterMetadata`. -/
def Target.RegisterMetadata : Nat := 4

/-- Modelled from the spec: code for the `Target::Profile` feature. -/
def Target.Profile : Nat := 5

/-- Modelled from the spec: code for the `Target::Debug` feature. -/
def Target.Debug : Nat := 6

/-- Modelled from the spec: `Target::FeatureEnd`, the number of feature
codes; the source statically asserts it fits in a 64-bit mask. -/
def Target.FeatureEnd : Nat := 16

/-- Modelled from the spec: architecture code for `Target::PNaCl`, the
bitcode-only architecture family used by the output driver's object-file
substitution. -/
def Target.PNaCl : Nat := 2

/-- Modelled from the spec: `has_feature(f)` queries the feature bitmask. -/
def Target.has_feature (t : Target) (f : Nat) : Bool :=
  t.features.testBit f

/-- Modelled from the spec: `with_feature(f)` is pure and returns a copy
with feature `f` set. -/
def Target.with_feature (t : Target) (f : Nat) : Target :=
  { t with features := t.features ||| (1 <<< f) }

/-- Modelled from the spec: `without_feature(f)` is pure and returns a copy
with feature `f` cleared. -/
def Target.without_feature (t : Target) (f : Nat) : Target :=
  { t with features := if t.features.testBit f then t.features - (1 <<< f) else t.features }

/-- Modelled from the spec: printable name of an OS code, for
serialization. -/
def osName : Nat → String
  | 0 => "linux"
  | 1 => "osx"
  | 2 => "windows"
  | 3 => "ios"
  | n => "os" ++ toString n

/-- Modelled from the spec: printable name of an architecture code. -/
def archName : Nat → String
  | 0 => "x86"
  | 1 => "arm"
  | 2 => "pnacl"
  | n => "arch" ++ toString n

/-- Modelled from the spec: printable name of a feature code. -/
def featureName : Nat → String
  | 0 => "jit"
  | 1 => "no_runtime"
  | 2 => "user_context"
  | 3 => "c_plus_plus_name_mangling"
  | 4 => "register_metadata"
  | 5 => "profile"
  | 6 => "debug"
  | n => "feature" ++ toString n

/-- Modelled from the spec: serialize-to-string following the grammar
`<os>-<arch>-<bits>[-<feature>]*` with `-` used only as a separator. -/
def Target.to_string (t : Target) : String :=
  osName t.os ++ "-" ++ archName t.arch ++ "-" ++ toString t.bits ++
    String.join (((List.range Target.FeatureEnd).filter
      (fun i => t.has_feature i)).map (fun i => "-" ++ featureName i))

/-- The `replace_all` string helper used for sub-function name mangling. -/
def replace_all (s pat rep : String) : String :=
  s.replace pat rep

/-- Modelled from the spec: `unique_name` derives a program-unique private
name from its argument; the global freshness counter is outside the
excerpt, so the modelled form returns the stem itself. -/
def unique_name (s : String) : String := s

/-- Modelled from the spec: a scalar type code as used by the IR
constructors (`Int(32)`, `UInt(64)`). -/
inductive HType where
  | int (bits : Nat)
  | uint (bits : Nat)

/-- Modelled from the spec: the call flavours `Call::Extern` and
`Call::Intrinsic` used by the synthesized dispatch wrapper. -/
inductive CallType where
  | extCall
  | intrinCall

/-- Modelled from the spec: the IR expression constructors that the
excerpted core uses to synthesize the dispatch wrapper (immediates,
variables, calls, and the comparison nodes built by `operator==` and
`operator!=`); all other expression forms are out of scope. -/
inductive Expr where
  | intImm (t : HType) (v : Int)
  | uintImm (t : HType) (v : Nat)
  | stringImm (s : String)
  | var (t : HType) (name : String)
  | call (t : HType) (fn : String) (args : List Expr) (ct : CallType)
  | eq (a b : Expr)
  | ne (a b : Expr)

/-- Modelled from the spec: the IR statement constructors needed by the
wrapper synthesis (`AssertStmt`, `LetStmt`); `abstractStmt` stands for the
already-lowered statement bodies that this core treats as a black box. -/
inductive Stmt where
  | assertStmt (cond : Expr) (msg : Expr)
  | letStmt (name : String) (value : Expr) (body : Stmt)
  | abstractStmt (tag : Nat)

/-- Modelled from the spec: an externally-visible argument record
`Argument(name, type, is-input-vs-output)` of a lowered function. -/
structure Argument where
  name : String
  isInput : Bool
  type : HType

/-- The linkage tag of a lowered function (`LoweredFunc::External` or
`LoweredFunc::Internal`). -/
inductive Linkage where
  | external
  | internal

/-- A lowered function entry: name, argument list, opaque body, linkage. -/
structure LoweredFunc where
  name : String
  args : List Argument
  body : Stmt
  linkage : Linkage

/-- Modelled from the spec: a constant global data buffer
`(name, element type, shape, byte contents)` owned by a Module. -/
structure Buffer where
  name : String
  elemType : HType
  shape : List Nat
  contents : List Nat

/-- A Module: name, Target, ordered buffers, ordered lowered functions
(the reference-counted `ModuleContents` modelled by value). -/
structure Module where
  name : String
  target : Target
  buffers : List Buffer
  functions : List LoweredFunc

/-- `Module::append(const Buffer&)`: push_back, preserving order. -/
def Module.append (m : Module) (b : Buffer) : Module :=
  { m with buffers := m.buffers ++ [b] }

/-- `Module::appendf(const LoweredFunc&)`: push_back, preserving order;
the source performs no name-collision check. -/
def Module.appendf (m : Module) (f : LoweredFunc) : Module :=
  { m with functions := m.functions ++ [f] }

/-- The body of both merge loops in the source: append every buffer of
`input`, then every function of `input`, onto `acc`. -/
def appendModuleInto (acc input : Module) : Module :=
  input.functions.foldl Module.appendf (input.buffers.foldl Module.append acc)

/-- The loop of `link_modules`: check each input's Target against the
output Module's Target (a fatal user error on mismatch), then merge. -/
def linkLoop : Module → List Module → Except String Module
  | out, [] => Except.ok out
  | out, input :: rest =>
    if out.target ≠ input.target then
      Except.error ("Mismatched targets in modules to link (" ++ out.name ++ ", "
        ++ Target.to_string out.target ++ "), (" ++ input.name ++ ", "
        ++ Target.to_string input.target ++ ")")
    else linkLoop (appendModuleInto out input) rest

/-- `link_modules(name, modules)`: the output Module takes the first
input's Target; every input is then checked and merged in list order. -/
def link_modules (nm : String) (modules : List Module) : Except String Module :=
  match modules with
  | [] => Except.error "Internal error: link_modules on an empty module list"
  | m0 :: _ => linkLoop (Module.mk nm m0.target [] []) modules

/-- The mangled per-target sub-function name:
`fn_name + "_" + replace_all(target.to_string(), "-", "_")`. -/
def subFnName (fn : String) (t : Target) : String :=
  fn ++ "_" ++ replace_all (Target.to_string t) "-" "_"

/-- The fixed must-match feature set of `build_multitarget_module`, in
source order. -/
def mustMatchFeatures : List Nat :=
  [Target.CPlusPlusMangling, Target.JIT, Target.NoRuntime,
   Target.RegisterMetadata, Target.UserContext]

/-- The arch-bits-os compatibility test of the multitarget loop. -/
def osArchBitsMismatch (t base : Target) : Bool :=
  t.os != base.os || t.arch != base.arch || t.bits != base.bits

/-- The first must-match feature whose value differs from the baseline,
if any (the loop raises a fatal user error on the first one found). -/
def firstMismatchFeature (t base : Target) : Option Nat :=
  mustMatchFeatures.find? (fun f => t.has_feature f != base.has_feature f)

/-- The packed 64-bit feature bitmask computed per sub-target. -/
def packFeatureBits (t : Target) : Nat :=
  (List.range Target.FeatureEnd).foldl
    (fun acc i => if t.has_feature i then acc ||| (1 <<< i) else acc) 0

/-- The per-target capability predicate expression: a call to
`halide_can_use_target_features` on the packed mask, except for a target
equal to the baseline, which gets the constant `IntImm(Int(32), 1)`. -/
def canUseExpr (t base : Target) : Expr :=
  if t ≠ base then
    Expr.call (HType.int 32) "halide_can_use_target_features"
      [Expr.uintImm (HType.uint 64) (packFeatureBits t)] CallType.extCall
  else Expr.intImm (HType.int 32) 1

/-- The dispatch predicate actually pushed onto `wrapper_args`:
`can_use != 0`. -/
def dispatchPred (t base : Target) : Expr :=
  Expr.ne (canUseExpr t base) (Expr.intImm (HType.int 32) 0)

/-- The per-target loop of `build_multitarget_module`: verify arch-bits-os
and the must-match features against the baseline (fatal user errors),
produce each sub-module with `NoRuntime` forced on and a mangled name, and
accumulate the wrapper's `(predicate, sub-function-name)` argument pairs
in target-list order. -/
def multitargetLoop (fn : String) (base : Target)
    (producer : String → Target → Module) :
    List Target → Except String (List Module × List Expr)
  | [] => Except.ok ([], [])
  | t :: rest =>
    if osArchBitsMismatch t base then
      Except.error "All Targets must have matching arch-bits-os for compile_to_multitarget_object."
    else
      match firstMismatchFeature t base with
      | some f =>
        Except.error ("All Targets must have feature " ++ toString f
          ++ " set identically for compile_to_multitarget_object.")
      | none =>
        let sub := producer (subFnName fn t) (t.with_feature Target.NoRuntime)
        match multitargetLoop fn base producer rest with
        | Except.error e => Except.error e
        | Except.ok (ms, ws) =>
          Except.ok (sub :: ms,
            dispatchPred t base :: Expr.stringImm (subFnName fn t) :: ws)

/-- The runtime-module injection step: if the baseline target does not
request `NoRuntime`, append one empty Module named `fn_name + "_runtime"`
on the baseline target (with `NoRuntime` cleared) to the merge list. -/
def runtimeAugment (fn : String) (base : Target) (ms : List Module) : List Module :=
  if base.has_feature Target.NoRuntime = false then
    ms ++ [Module.mk (fn ++ "_runtime") (base.without_feature Target.NoRuntime) [] []]
  else ms

/-- `build_multitarget_module(fn_name, targets, module_producer)`:
preconditions (non-empty name, non-empty target list, no JIT on the
baseline), the single-target fast path, the per-target loop, the runtime
module injection, and the final merge with the dispatch wrapper appended
last.  Fatal user errors are modelled as `Except.error`. -/
def build_multitarget_module (fn : String) (targets : List Target)
    (producer : String → Target → Module) : Except String Module :=
  if fn = "" then Except.error "Function name must be specified."
  else
    match targets with
    | [] => Except.error "Must specify at least one target."
    | t0 :: ts =>
      let base := ts.getLastD t0
      if base.has_feature Target.JIT then
        Except.error "JIT not allowed for compile_to_multitarget_object."
      else
        match ts with
        | [] => Except.ok (producer fn base)
        | t1 :: ts1 =>
          match multitargetLoop fn base producer (t0 :: t1 :: ts1) with
          | Except.error e => Except.error e
          | Except.ok (mods, wargs) =>
            match mods.getLast? with
            | none => Except.error "Internal error: no sub-modules"
            | some base_module =>
              match base_module.functions.getLast? with
              | none => Except.error "Internal error: out-of-range access into Module functions"
              | some base_public_func =>
                let public_args := base_public_func.args
                let mods2 := runtimeAugment fn base mods
                let indirect_result := Expr.call (HType.int 32)
                  "call_cached_indirect_function" wargs CallType.intrinCall
                let prn := unique_name (fn ++ "_result")
                let prv := Expr.var (HType.int 32) prn
                let wrapper_body := Stmt.letStmt prn indirect_result
                  (Stmt.assertStmt (Expr.eq prv (Expr.intImm (HType.int 32) 0)) prv)
                let multi := mods2.foldl appendModuleInto (Module.mk fn base [] [])
                Except.ok (Module.appendf multi
                  (LoweredFunc.mk fn public_args wrapper_body Linkage.external))

/-- An Outputs request: one optional destination path per artifact kind;
the empty string means "do not produce that artifact". -/
structure Outputs where
  object_name : String
  assembly_name : String
  bitcode_name : String
  llvm_assembly_name : String
  c_header_name : String
  c_source_name : String
  stmt_name : String
  stmt_html_name : String

/-- Modelled from the spec: the result of the expensive
lowering-to-native-representation step (`compile_module_to_llvm_module`);
the LLVM backend is out of scope, so the result is a tagged wrapper of the
lowered Module. -/
structure LLVMModule where
  lowered : Module

/-- Modelled from the spec: the single lowering pass shared by all
native-format requests of one output-driver call. -/
def compile_module_to_llvm_module (m : Module) : LLVMModule := ⟨m⟩

/-- The `CodeGen_C` output flavour selected by the Target's
C++-name-mangling feature. -/
inductive CodeGenCKind where
  | CHeader
  | CPlusPlusHeader
  | CImplementation
  | CPlusPlusImplementation

/-- One observable backend action of the output driver.  The trace of a
driver call records which backends ran, on which destination paths, and
which lowered representation each native emission consumed. -/
inductive OutEvent where
  | lowerToLLVM (m : Module)
  | emitObject (path : String) (lm : LLVMModule)
  | emitAssembly (path : String) (lm : LLVMModule)
  | emitLLVMBitcode (path : String) (lm : LLVMModule)
  | emitLLVMAssembly (path : String) (lm : LLVMModule)
  | emitCHeader (path : String) (kind : CodeGenCKind) (m : Module)
  | emitCSource (path : String) (kind : CodeGenCKind) (m : Module)
  | emitStmtText (path : String) (m : Module)
  | emitStmtHtml (path : String) (m : Module)

/-- `compile_module_to_outputs(module, output_files)` from Output.cpp as a
trace of backend actions: one shared lowering when any of the four native
paths is requested, the PNaCl bitcode substitution for object and assembly
requests, the CodeGen_C header/source emissions parameterized by the
C++-mangling feature, and the statement dumps. -/
def compile_module_to_outputs (m : Module) (o : Outputs) : List OutEvent :=
  (if o.object_name ≠ "" ∨ o.assembly_name ≠ "" ∨ o.bitcode_name ≠ "" ∨ o.llvm_assembly_name ≠ "" then
    let lm := compile_module_to_llvm_module m
    [OutEvent.lowerToLLVM m]
    ++ (if o.object_name ≠ "" then
          (if m.target.arch = Target.PNaCl then [OutEvent.emitLLVMBitcode o.object_name lm]
           else [OutEvent.emitObject o.object_name lm])
        else [])
    ++ (if o.assembly_name ≠ "" then
          (if m.target.arch = Target.PNaCl then [OutEvent.emitLLVMAssembly o.assembly_name lm]
           else [OutEvent.emitAssembly o.assembly_name lm])
        else [])
    ++ (if o.bitcode_name ≠ "" then [OutEvent.emitLLVMBitcode o.bitcode_name lm] else [])
    ++ (if o.llvm_assembly_name ≠ "" then [OutEvent.emitLLVMAssembly o.llvm_assembly_name lm] else [])
  else [])
  ++ (if o.c_header_name ≠ "" then
        [OutEvent.emitCHeader o.c_header_name
          (if m.target.has_feature Target.CPlusPlusMangling then CodeGenCKind.CPlusPlusHeader
           else CodeGenCKind.CHeader) m]
      else [])
  ++ (if o.c_source_name ≠ "" then
        [OutEvent.emitCSource o.c_source_name
          (if m.target.has_feature Target.CPlusPlusMangling then CodeGenCKind.CPlusPlusImplementation
           else CodeGenCKind.CImplementation) m]
      else [])
  ++ (if o.stmt_name ≠ "" then [OutEvent.emitStmtText o.stmt_name m] else [])
  ++ (if o.stmt_html_name ≠ "" then [OutEvent.emitStmtHtml o.stmt_html_name m] else [])

/-- `Module::compile(const Outputs&)` from the Module implementation: the
same artifact-emission logic written out on the receiver Module. -/
def Module.compile (m : Module) (o : Outputs) : List OutEvent :=
  (if o.object_name ≠ "" ∨ o.assembly_name ≠ "" ∨ o.bitcode_name ≠ "" ∨ o.llvm_assembly_name ≠ "" then
    let lm := compile_module_to_llvm_module m
    [OutEvent.lowerToLLVM m]
    ++ (if o.object_name ≠ "" then
          (if m.target.arch = Target.PNaCl then [OutEvent.emitLLVMBitcode o.object_name lm]
           else [OutEvent.emitObject o.object_name lm])
        else [])
    ++ (if o.assembly_name ≠ "" then
          (if m.target.arch = Target.PNaCl then [OutEvent.emitLLVMAssembly o.assembly_name lm]
           else [OutEvent.emitAssembly o.assembly_name lm])
        else [])
    ++ (if o.bitcode_name ≠ "" then [OutEvent.emitLLVMBitcode o.bitcode_name lm] else [])
    ++ (if o.llvm_assembly_name ≠ "" then [OutEvent.emitLLVMAssembly o.llvm_assembly_name lm] else [])
  else [])
  ++ (if o.c_header_name ≠ "" then
        [OutEvent.emitCHeader o.c_header_name
          (if m.target.has_feature Target.CPlusPlusMangling then CodeGenCKind.CPlusPlusHeader
           else CodeGenCKind.CHeader) m]
      else [])
  ++ (if o.c_source_name ≠ "" then
        [OutEvent.emitCSource o.c_source_name
          (if m.target.has_feature Target.CPlusPlusMangling then CodeGenCKind.CPlusPlusImplementation
           else CodeGenCKind.CImplementation) m]
      else [])
  ++ (if o.stmt_name ≠ "" then [OutEvent.emitStmtText o.stmt_name m] else [])
  ++ (if o.stmt_html_name ≠ "" then [OutEvent.emitStmtHtml o.stmt_html_name m] else [])

/-- Recognizer for the lowering step in an output-driver trace. -/
def isLowerEvent : OutEvent → Bool
  | OutEvent.lowerToLLVM _ => true
  | _ => false

/-- Number of lowering-to-native steps performed in a trace. -/
def countLowerings (evs : List OutEvent) : Nat :=
  evs.countP isLowerEvent

/-- The lowered representation consumed by a native emission event, if it
is one. -/
def loweredInput : OutEvent → Option LLVMModule
  | OutEvent.emitObject _ lm => some lm
  | OutEvent.emitAssembly _ lm => some lm
  | OutEvent.emitLLVMBitcode _ lm => some lm
  | OutEvent.emitLLVMAssembly _ lm => some lm
  | _ => none

/-- The interleaved `(predicate, sub-function-name)` wrapper argument list
that the multitarget loop accumulates, in target-list order. -/
def wrapperArgsOf (fn : String) (targets : List Target) (base : Target) : List Expr :=
  (targets.map (fun t => [dispatchPred t base, Expr.stringImm (subFnName fn t)])).flatten

/-- The synthesized dispatch wrapper body: bind the cached indirect call
over the wrapper arguments, then assert its result is zero with the result
as the diagnostic payload. -/
def wrapperBodyOf (fn : String) (targets : List Target) (base : Target) : Stmt :=
  Stmt.letStmt (unique_name (fn ++ "_result"))
    (Expr.call (HType.int 32) "call_cached_indirect_function"
      (wrapperArgsOf fn targets base) CallType.intrinCall)
    (Stmt.assertStmt
      (Expr.eq (Expr.var (HType.int 32) (unique_name (fn ++ "_result")))
        (Expr.intImm (HType.int 32) 0))
      (Expr.var (HType.int 32) (unique_name (fn ++ "_result"))))

/-- Modelled from the spec: the runtime dispatch-cache entry point scans
its `(predicate, candidate)` pairs in order and selects the first
predicate that holds; this is its selection index over the predicate list
under a given predicate valuation. -/
def firstTrueIdx (ev : Expr → Bool) (preds : List Expr) : Nat :=
  preds.findIdx ev

/-- A default Module value used to name concrete build results. -/
def mdefault : Module := Module.mk "" (Target.mk 0 0 0 0) [] []

/-- A sample target with no features, used by concrete witnesses. -/
def tW : Target := Target.mk 0 0 64 0

/-- A sample module producer whose output carries one public function. -/
def pS : String → Target → Module := fun n t =>
  Module.mk n t []
    [LoweredFunc.mk n [Argument.mk "x" true (HType.int 32)]
      (Stmt.abstractStmt 0) Linkage.external]

/-- The concrete result of a sample two-target multitarget build. -/
def wSample : Module :=
  (build_multitarget_module "f" [tW, tW] pS).toOption.getD mdefault

/-- A sample target carrying only the `UserContext` feature. -/
def tUC : Target := Target.mk 0 0 64 (1 <<< Target.UserContext)

/-- A sample internal-linkage lowered function. -/
def gInternal : LoweredFunc :=
  LoweredFunc.mk "g" [] (Stmt.abstractStmt 0) Linkage.internal

/-- A name-sensitive sample producer: three functions when asked for the
public name "f", one function for any other (e.g. mangled) name. -/
def p5 : String → Target → Module := fun n t =>
  Module.mk n t [] (if n = "f" then [gInternal, gInternal, gInternal] else [gInternal])

/-- The concrete result of a two-target build over the name-sensitive
producer. -/
def w5 : Module :=
  (build_multitarget_module "f" [tW, tW] p5).toOption.getD mdefault

/-- A sample Module for output-driver witnesses. -/
def mW : Module := Module.mk "m" tW [] []

/-- A sample Outputs request asking only for an object file. -/
def oW : Outputs := Outputs.mk "a.o" "" "" "" "" "" "" ""

theorem foldl_append_buffers (bs : List Buffer) (acc : Module) :
    bs.foldl Module.append acc
      = Module.mk acc.name acc.target (acc.buffers ++ bs) acc.functions := by
  induction bs generalizing acc with
  | nil => simp
  | cons b bs ih => simp [ih, Module.append]

theorem foldl_append_functions (fs : List LoweredFunc) (acc : Module) :
    fs.foldl Module.appendf acc
      = Module.mk acc.name acc.target acc.buffers (acc.functions ++ fs) := by
  induction fs generalizing acc with
  | nil => simp
  | cons f fs ih => simp [ih, Module.appendf]

theorem appendModuleInto_eq (acc input : Module) :
    appendModuleInto acc input
      = Module.mk acc.name acc.target (acc.buffers ++ input.buffers)
          (acc.functions ++ input.functions) := by
  simp [appendModuleInto, foldl_append_buffers, foldl_append_functions]

theorem foldl_appendModuleInto (ms : List Module) (acc : Module) :
    ms.foldl appendModuleInto acc
      = Module.mk acc.name acc.target
          (acc.buffers ++ (ms.map Module.buffers).flatten)
          (acc.functions ++ (ms.map Module.functions).flatten) := by
  induction ms generalizing acc with
  | nil => simp
  | cons m ms ih => simp [ih, appendModuleInto_eq]

theorem getLast?_cons_cons_eq_getLastD (a b : α) (l : List α) :
    (a :: b :: l).getLast? = some (l.getLastD b) := by
  simp only [List.getLast?_cons_cons]
  induction l generalizing b with
  | nil => rfl
  | cons c l ih => simp [List.getLast?_cons_cons, ih, List.getLastD_cons]

/-- Claim C3: with a non-empty function name and a single-element target
list whose target lacks the JIT feature, `build_multitarget_module`
returns exactly the producer's Module, with no dispatch wrapper appended
(so in particular the function count is the producer output's count). -/
theorem build_multitarget_single_target_fast_path
    (fn : String) (t : Target) (p : String → Target → Module)
    (hfn : fn ≠ "") (hjit : t.has_feature Target.JIT = false) :
    build_multitarget_module fn [t] p = Except.ok (p fn t) := by
  simp [build_multitarget_module, hfn, hjit, List.getLastD]

/-- Witness for C3 at a concrete name, target and producer. -/
theorem build_multitarget_single_target_fast_path_witness :
    build_multitarget_module "f" [tW] pS = Except.ok (pS "f" tW) :=
  build_multitarget_single_target_fast_path "f" tW pS (by decide) (by decide)

/-- Claim C7: `Module::compile` and the standalone output driver
`compile_module_to_outputs` produce the same artifact trace on every
Module and Outputs request: the two implementations are behaviourally
equivalent. -/
theorem module_compile_eq_compile_module_to_outputs (m : Module) (o : Outputs) :
    Module.compile m o = compile_module_to_outputs m o := rfl

/-- Claim C8: `link_modules` over a single-element list yields a Module
with that input's Target and with buffer and function lists equal in
content and order to the input's. -/
theorem link_modules_singleton (nm : String) (m : Module) :
    link_modules nm [m] = Except.ok (Module.mk nm m.target m.buffers m.functions) := by
  simp [link_modules, linkLoop, appendModuleInto_eq]

/-- Counterexample for C9: appending a function whose name collides with
an existing function's name does not fail — `Module::appendf` performs no
assertion and simply appends, leaving two same-named functions. -/
theorem module_appendf_collision_counterexample :
    ((Module.mk "m" tW [] [LoweredFunc.mk "f" [] (Stmt.abstractStmt 0) Linkage.external]).appendf
        (LoweredFunc.mk "f" [] (Stmt.abstractStmt 0) Linkage.external)).functions.map LoweredFunc.name
      = ["f", "f"] := rfl

/-- Claim C9 (amended): `append`/`appendf` always succeed, preserve
insertion order, and perform no function-name-collision check — a
colliding name is appended like any other (collision handling is left to
later stages, per the TODO in `link_modules`). -/
theorem module_append_order_no_collision_check (m : Module) (f : LoweredFunc) (b : Buffer) :
    (m.appendf f).functions = m.functions ++ [f]
      ∧ (m.appendf f).buffers = m.buffers
      ∧ (m.append b).buffers = m.buffers ++ [b]
      ∧ (m.append b).functions = m.functions := by
  refine ⟨rfl, rfl, rfl, rfl⟩

theorem linkLoop_ok_target (ms : List Module) (out r : Module)
    (h : linkLoop out ms = Except.ok r) : r.target = out.target := by
  induction ms generalizing out with
  | nil =>
    simp [linkLoop] at h
    simp [h]
  | cons input rest ih =>
    by_cases hmt : out.target = input.target
    · simp [linkLoop, hmt] at h
      have := ih _ h
      simpa [appendModuleInto_eq] using this
    · simp [linkLoop, hmt] at h

theorem linkLoop_ok_all_targets (ms : List Module) (out r : Module)
    (h : linkLoop out ms = Except.ok r) :
    ∀ input ∈ ms, input.target = out.target := by
  induction ms generalizing out with
  | nil => simp
  | cons input rest ih =>
    by_cases hmt : out.target = input.target
    · simp only [linkLoop, hmt] at h
      simp only [ne_eq, not_true_eq_false, reduceIte] at h
      intro i hi
      rcases List.mem_cons.1 hi with hi | hi
      · simp [hi, hmt]
      · have := ih _ h i hi
        simpa [appendModuleInto_eq, hmt] using this
    · simp [linkLoop, hmt] at h

/-- Claim C4: for a non-empty input list, a successful `link_modules`
result takes its Target from the first input Module, and whenever any
input's Target is unequal (strict Target equality) to the first input's,
the link fails with a user error and produces no Module. -/
theorem link_modules_target_first_and_mismatch_fails
    (nm : String) (ms : List Module) (m0 : Module) (h0 : ms.head? = some m0) :
    (∀ r, link_modules nm ms = Except.ok r → r.target = m0.target)
      ∧ ((∃ mi ∈ ms, mi.target ≠ m0.target) →
          ∀ r, link_modules nm ms ≠ Except.ok r) := by
  cases ms with
  | nil => simp at h0
  | cons mh mt =>
    simp only [List.head?_cons, Option.some.injEq] at h0
    subst h0
    constructor
    · intro r hr
      simp only [link_modules] at hr
      have := linkLoop_ok_target _ _ _ hr
      simpa using this
    · rintro ⟨mi, hmi, hne⟩ r hr
      simp only [link_modules] at hr
      have := linkLoop_ok_all_targets _ _ _ hr mi hmi
      simp at this
      exact hne this

/-- Witness for C4: linking two concrete Modules with different Targets
cannot succeed. -/
theorem link_modules_mismatch_fails_witness :
    link_modules "out"
        [Module.mk "a" (Target.mk 0 0 32 0) [] [], Module.mk "b" (Target.mk 1 0 32 0) [] []]
      ≠ Except.ok mdefault :=
  (link_modules_target_first_and_mismatch_fails "out"
      [Module.mk "a" (Target.mk 0 0 32 0) [] [], Module.mk "b" (Target.mk 1 0 32 0) [] []]
      (Module.mk "a" (Target.mk 0 0 32 0) [] []) rfl).2
    ⟨Module.mk "b" (Target.mk 1 0 32 0) [] [],
      List.mem_cons_of_mem _ (List.mem_cons_self _ _), by decide⟩ mdefault

theorem multitargetLoop_ok_shape (fn : String) (base : Target)
    (p : String → Target → Module) (l : List Target) (ms : List Module) (ws : List Expr)
    (h : multitargetLoop fn base p l = Except.ok (ms, ws)) :
    ms = l.map (fun t => p (subFnName fn t) (t.with_feature Target.NoRuntime))
      ∧ ws = wrapperArgsOf fn l base := by
  induction l generalizing ms ws with
  | nil =>
    simp only [multitargetLoop, Except.ok.injEq, Prod.mk.injEq] at h
    simp [← h.1, ← h.2, wrapperArgsOf]
  | cons t rest ih =>
    by_cases h1 : osArchBitsMismatch t base
    · simp [multitargetLoop, h1] at h
    · cases h2 : firstMismatchFeature t base with
      | some f => simp [multitargetLoop, h1, h2] at h
      | none =>
        simp only [multitargetLoop, h1, Bool.false_eq_true, reduceIte, h2] at h
        cases hrec : multitargetLoop fn base p rest with
        | error e => simp [hrec] at h
        | ok pr =>
          obtain ⟨ms', ws'⟩ := pr
          rw [hrec] at h
          simp only [Except.ok.injEq, Prod.mk.injEq] at h
          obtain ⟨hrec1, hrec2⟩ := ih ms' ws' hrec
          refine ⟨?_, ?_⟩
          · simp [← h.1, hrec1]
          · simp [← h.2, hrec2, wrapperArgsOf]

theorem multitargetLoop_ok_checks (fn : String) (base : Target)
    (p : String → Target → Module) (l : List Target) (ms : List Module) (ws : List Expr)
    (h : multitargetLoop fn base p l = Except.ok (ms, ws)) :
    ∀ t ∈ l, osArchBitsMismatch t base = false ∧ firstMismatchFeature t base = none := by
  induction l generalizing ms ws with
  | nil => simp
  | cons t rest ih =>
    by_cases h1 : osArchBitsMismatch t base
    · simp [multitargetLoop, h1] at h
    · cases h2 : firstMismatchFeature t base with
      | some f => simp [multitargetLoop, h1, h2] at h
      | none =>
        simp only [multitargetLoop, h1, Bool.false_eq_true, reduceIte, h2] at h
        cases hrec : multitargetLoop fn base p rest with
        | error e => simp [hrec] at h
        | ok pr =>
          intro t' ht'
          rcases List.mem_cons.1 ht' with ht' | ht'
          · subst ht'
            exact ⟨by simpa using h1, h2⟩
          · exact ih pr.1 pr.2 (by simpa using hrec) t' ht'

theorem build_multitarget_ok_loop (fn : String) (t0 t1 : Target) (ts : List Target)
    (p : String → Target → Module) (m : Module)
    (hok : build_multitarget_module fn (t0 :: t1 :: ts) p = Except.ok m) :
    ∃ ms ws, multitargetLoop fn (ts.getLastD t1) p (t0 :: t1 :: ts) = Except.ok (ms, ws) := by
  by_cases hfn : fn = ""
  · simp [build_multitarget_module, hfn] at hok
  · simp only [build_multitarget_module, hfn, reduceIte, List.getLastD_cons] at hok
    by_cases hjit : (ts.getLastD t1).has_feature Target.JIT
    · rw [show (ts.getLastD t1).has_feature Target.JIT = true from hjit] at hok
      simp only [reduceIte] at hok
      exact absurd hok (by simp)
    · simp only [hjit, Bool.false_eq_true, reduceIte] at hok
      cases hloop : multitargetLoop fn (ts.getLastD t1) p (t0 :: t1 :: ts) with
      | error e => rw [hloop] at hok; simp at hok
      | ok pr =>
        obtain ⟨ms, ws⟩ := pr
        exact ⟨ms, ws, rfl⟩

theorem build_multitarget_ok_inv (fn : String) (t0 t1 : Target) (ts : List Target)
    (p : String → Target → Module) (m : Module)
    (hok : build_multitarget_module fn (t0 :: t1 :: ts) p = Except.ok m) :
    ∃ blf : LoweredFunc,
      (p (subFnName fn (ts.getLastD t1))
          ((ts.getLastD t1).with_feature Target.NoRuntime)).functions.getLast? = some blf
      ∧ m = Module.mk fn (ts.getLastD t1)
          (((runtimeAugment fn (ts.getLastD t1)
              ((t0 :: t1 :: ts).map
                (fun t => p (subFnName fn t) (t.with_feature Target.NoRuntime)))).map
            Module.buffers).flatten)
          ((((runtimeAugment fn (ts.getLastD t1)
              ((t0 :: t1 :: ts).map
                (fun t => p (subFnName fn t) (t.with_feature Target.NoRuntime)))).map
            Module.functions).flatten)
            ++ [LoweredFunc.mk fn blf.args
                  (wrapperBodyOf fn (t0 :: t1 :: ts) (ts.getLastD t1)) Linkage.external]) := by
  by_cases hfn : fn = ""
  · simp [build_multitarget_module, hfn] at hok
  · simp only [build_multitarget_module, hfn, reduceIte, List.getLastD_cons] at hok
    by_cases hjit : (ts.getLastD t1).has_feature Target.JIT
    · rw [show (ts.getLastD t1).has_feature Target.JIT = true from hjit] at hok
      simp only [reduceIte] at hok
      exact absurd hok (by simp)
    · simp only [hjit, Bool.false_eq_true, reduceIte] at hok
      cases hloop : multitargetLoop fn (ts.getLastD t1) p (t0 :: t1 :: ts) with
      | error e => rw [hloop] at hok; simp at hok
      | ok pr =>
        obtain ⟨ms, ws⟩ := pr
        obtain ⟨hms, hws⟩ := multitargetLoop_ok_shape _ _ _ _ _ _ hloop
        subst hms hws
        rw [hloop] at hok
        simp only [List.getLast?_map, getLast?_cons_cons_eq_getLastD,
          Option.map_some'] at hok
        cases hblf : (p (subFnName fn (ts.getLastD t1))
            ((ts.getLastD t1).with_feature Target.NoRuntime)).functions.getLast? with
        | none => rw [hblf] at hok; simp at hok
        | some blf =>
          rw [hblf] at hok
          simp only [Except.ok.injEq] at hok
          refine ⟨blf, rfl, ?_⟩
          rw [← hok]
          simp [Module.appendf, foldl_appendModuleInto, wrapperBodyOf]

theorem runtimeAugment_functions_flatten (fn : String) (base : Target) (ms : List Module) :
    ((runtimeAugment fn base ms).map Module.functions).flatten
      = (ms.map Module.functions).flatten := by
  unfold runtimeAugment
  split <;> simp

/-- Claim C1: a successful multitarget build over at least two targets
yields a Module whose function list is all sub-module functions (in
target-list order) followed by one wrapper appended last, named exactly
`fn_name`, with External linkage, whose argument list is the argument
list of the last function of the baseline (last) sub-module returned by
the producer. -/
theorem build_multitarget_wrapper_last (fn : String) (t0 t1 : Target) (ts : List Target)
    (p : String → Target → Module) (m : Module)
    (hok : build_multitarget_module fn (t0 :: t1 :: ts) p = Except.ok m) :
    ∃ body blf,
      (p (subFnName fn (ts.getLastD t1))
          ((ts.getLastD t1).with_feature Target.NoRuntime)).functions.getLast? = some blf
      ∧ m.functions
        = ((t0 :: t1 :: ts).map
            (fun t => (p (subFnName fn t) (t.with_feature Target.NoRuntime)).functions)).flatten
          ++ [LoweredFunc.mk fn blf.args body Linkage.external] := by
  obtain ⟨blf, hblf, hm⟩ := build_multitarget_ok_inv fn t0 t1 ts p m hok
  refine ⟨wrapperBodyOf fn (t0 :: t1 :: ts) (ts.getLastD t1), blf, hblf, ?_⟩
  rw [hm]
  show ((runtimeAugment _ _ _).map Module.functions).flatten ++ _ = _
  rw [runtimeAugment_functions_flatten]
  simp [List.map_map, Function.comp_def]

/-- Witness for C1 at a concrete producer and concrete equal targets. -/
theorem build_multitarget_wrapper_last_witness :
    ∃ body blf,
      (pS (subFnName "f" tW) (tW.with_feature Target.NoRuntime)).functions.getLast? = some blf
      ∧ wSample.functions
        = ([tW, tW].map
            (fun t => (pS (subFnName "f" t) (t.with_feature Target.NoRuntime)).functions)).flatten
          ++ [LoweredFunc.mk "f" blf.args body Linkage.external] :=
  build_multitarget_wrapper_last "f" tW tW [] pS wSample rfl

theorem build_ok_must_match (fn : String) (t0 t1 : Target) (ts : List Target)
    (p : String → Target → Module) (m : Module)
    (hok : build_multitarget_module fn (t0 :: t1 :: ts) p = Except.ok m) :
    ∀ t ∈ t0 :: t1 :: ts, ∀ f ∈ mustMatchFeatures,
      t.has_feature f = (ts.getLastD t1).has_feature f := by
  intro t ht f hf
  obtain ⟨ms, ws, hloop⟩ := build_multitarget_ok_loop fn t0 t1 ts p m hok
  have hchk := (multitargetLoop_ok_checks _ _ _ _ _ _ hloop t ht).2
  rw [firstMismatchFeature, List.find?_eq_none] at hchk
  have hb := hchk f hf
  simpa using hb

/-- Claim C2: in a multitarget build with at least two targets, success
implies every target agrees with the baseline (last) target on each of
the five must-match features (C++ name-mangling, JIT, no-runtime,
register-metadata, user-context), and any mismatch in any of these
features makes the build fail with a fatal user error. -/
theorem build_multitarget_must_match (fn : String) (t0 t1 : Target) (ts : List Target)
    (p : String → Target → Module) :
    (∀ m, build_multitarget_module fn (t0 :: t1 :: ts) p = Except.ok m →
      ∀ t ∈ t0 :: t1 :: ts, ∀ f ∈ mustMatchFeatures,
        t.has_feature f = (ts.getLastD t1).has_feature f)
    ∧ ((∃ t ∈ t0 :: t1 :: ts, ∃ f ∈ mustMatchFeatures,
          t.has_feature f ≠ (ts.getLastD t1).has_feature f) →
        ∀ m, build_multitarget_module fn (t0 :: t1 :: ts) p ≠ Except.ok m) := by
  refine ⟨fun m hok => build_ok_must_match fn t0 t1 ts p m hok, ?_⟩
  rintro ⟨t, ht, f, hf, hne⟩ m hok
  exact hne (build_ok_must_match fn t0 t1 ts p m hok t ht f hf)

/-- Witness for C2: a user-context mismatch between the two targets makes
the concrete build fail. -/
theorem build_multitarget_must_match_witness :
    build_multitarget_module "f" [tUC, tW] pS ≠ Except.ok mdefault :=
  (build_multitarget_must_match "f" tUC tW [] pS).2
    ⟨tUC, List.mem_cons_self _ _, Target.UserContext, by decide, by decide⟩ mdefault

/-- Claim C5 (amended): on a successful two-target build whose baseline
lacks the no-runtime feature, one additional empty Module named
`fn_name + "_runtime"` is appended to the merge list, and the resulting
Module has exactly one more function than the two sub-modules actually
produced — `producer(sub_name_i, t_i with NoRuntime)` — combined: the
extra function is the appended dispatch wrapper (the injected runtime
module itself is empty). -/
theorem build_multitarget_runtime_module_and_count (fn : String) (ta tb : Target)
    (p : String → Target → Module) (m : Module)
    (hok : build_multitarget_module fn [ta, tb] p = Except.ok m)
    (hnr : tb.has_feature Target.NoRuntime = false) :
    runtimeAugment fn tb
        [p (subFnName fn ta) (ta.with_feature Target.NoRuntime),
         p (subFnName fn tb) (tb.with_feature Target.NoRuntime)]
      = [p (subFnName fn ta) (ta.with_feature Target.NoRuntime),
         p (subFnName fn tb) (tb.with_feature Target.NoRuntime),
         Module.mk (fn ++ "_runtime") (tb.without_feature Target.NoRuntime) [] []]
    ∧ m.functions.length
      = (p (subFnName fn ta) (ta.with_feature Target.NoRuntime)).functions.length
        + (p (subFnName fn tb) (tb.with_feature Target.NoRuntime)).functions.length + 1 := by
  constructor
  · simp [runtimeAugment, hnr]
  · obtain ⟨blf, hblf, hm⟩ := build_multitarget_ok_inv fn ta tb [] p m hok
    rw [hm]
    show (((runtimeAugment _ _ _).map Module.functions).flatten ++ _).length = _
    rw [runtimeAugment_functions_flatten]
    simp only [List.map_cons, List.map_nil, List.flatten_cons, List.flatten_nil,
      List.length_append, List.length_cons, List.length_nil]
    omega

/-- Witness for C5 (amended) at a concrete producer and targets. -/
theorem build_multitarget_runtime_module_and_count_witness :
    runtimeAugment "f" tW
        [pS (subFnName "f" tW) (tW.with_feature Target.NoRuntime),
         pS (subFnName "f" tW) (tW.with_feature Target.NoRuntime)]
      = [pS (subFnName "f" tW) (tW.with_feature Target.NoRuntime),
         pS (subFnName "f" tW) (tW.with_feature Target.NoRuntime),
         Module.mk ("f" ++ "_runtime") (tW.without_feature Target.NoRuntime) [] []]
    ∧ wSample.functions.length
      = (pS (subFnName "f" tW) (tW.with_feature Target.NoRuntime)).functions.length
        + (pS (subFnName "f" tW) (tW.with_feature Target.NoRuntime)).functions.length + 1 :=
  build_multitarget_runtime_module_and_count "f" tW tW pS wSample rfl (by decide)

/-- Counterexample for C5 as stated: a producer whose output depends on
the requested function name makes the claimed inequality against
`producer(fn, t_i)` fail — the build succeeds with 3 functions while
`producer("f", t)` alone has 3, so 3 + 3 = 6 is not exceeded. -/
theorem build_multitarget_runtime_count_counterexample :
    tW.has_feature Target.NoRuntime = false
    ∧ build_multitarget_module "f" [tW, tW] p5 = Except.ok w5
    ∧ w5.functions.length = 3
    ∧ (p5 "f" tW).functions.length + (p5 "f" tW).functions.length = 6
    ∧ ¬ (w5.functions.length
          > (p5 "f" tW).functions.length + (p5 "f" tW).functions.length) := by
  exact ⟨rfl, rfl, rfl, rfl, by decide⟩

theorem dispatchPred_eq_const_iff (t b : Target) :
    dispatchPred t b = Expr.ne (Expr.intImm (HType.int 32) 1) (Expr.intImm (HType.int 32) 0)
      ↔ t = b := by
  unfold dispatchPred canUseExpr
  by_cases h : t = b
  · simp [h]
  · simp [h]

theorem findIdx_le_of_getElem? (q : α → Bool) (l : List α) (i : Nat) (a : α)
    (h : l[i]? = some a) (hq : q a = true) : l.findIdx q ≤ i := by
  induction l generalizing i with
  | nil => simp at h
  | cons hd tl ih =>
    cases i with
    | zero =>
      simp only [List.getElem?_cons_zero, Option.some.injEq] at h
      subst h
      simp [List.findIdx_cons, hq]
    | succ n =>
      simp only [List.getElem?_cons_succ] at h
      by_cases hp : q hd
      · simp [List.findIdx_cons, hp]
      · simp only [List.findIdx_cons, hp, cond_false]
        have := ih n h
        omega

/-- Claim C10: in a successful multitarget build with at least two
targets, the appended wrapper's body dispatches over the interleaved
`(predicate, sub-function-name)` list in which the predicate is the
unconditional constant-true comparison `IntImm(1) != 0` exactly for the
entries whose whole Target value equals the baseline, and a
`halide_can_use_target_features` call on the entry's packed feature
bitmask otherwise; consequently, under the spec's first-true-wins scan,
an earlier entry value-equal to the baseline is selected strictly before
the trailing baseline entry. -/
theorem build_multitarget_dispatch_predicates (fn : String) (t0 t1 : Target)
    (ts : List Target) (p : String → Target → Module) (m : Module)
    (hok : build_multitarget_module fn (t0 :: t1 :: ts) p = Except.ok m) :
    (∃ lf, m.functions.getLast? = some lf
       ∧ lf.name = fn ∧ lf.linkage = Linkage.external
       ∧ lf.body = wrapperBodyOf fn (t0 :: t1 :: ts) (ts.getLastD t1))
    ∧ (∀ t ∈ t0 :: t1 :: ts,
        (dispatchPred t (ts.getLastD t1)
            = Expr.ne (Expr.intImm (HType.int 32) 1) (Expr.intImm (HType.int 32) 0)
          ↔ t = ts.getLastD t1)
        ∧ (t ≠ ts.getLastD t1 →
            dispatchPred t (ts.getLastD t1)
              = Expr.ne (Expr.call (HType.int 32) "halide_can_use_target_features"
                  [Expr.uintImm (HType.uint 64) (packFeatureBits t)] CallType.extCall)
                  (Expr.intImm (HType.int 32) 0)))
    ∧ (∀ ev : Expr → Bool,
        ev (Expr.ne (Expr.intImm (HType.int 32) 1) (Expr.intImm (HType.int 32) 0)) = true →
        ∀ i, (t0 :: t1 :: ts)[i]? = some (ts.getLastD t1) →
          i + 1 < (t0 :: t1 :: ts).length →
          firstTrueIdx ev
              ((t0 :: t1 :: ts).map (fun t => dispatchPred t (ts.getLastD t1)))
            < (t0 :: t1 :: ts).length - 1) := by
  obtain ⟨blf, hblf, hm⟩ := build_multitarget_ok_inv fn t0 t1 ts p m hok
  refine ⟨?_, ?_, ?_⟩
  · refine ⟨LoweredFunc.mk fn blf.args
      (wrapperBodyOf fn (t0 :: t1 :: ts) (ts.getLastD t1)) Linkage.external, ?_, rfl, rfl, rfl⟩
    rw [hm]
    show (_ ++ [_]).getLast? = _
    exact List.getLast?_concat _
  · intro t _
    refine ⟨dispatchPred_eq_const_iff t (ts.getLastD t1), fun hne => ?_⟩
    unfold dispatchPred canUseExpr
    rw [if_pos hne]
  · intro ev hev i hi hlen
    have hpred : ((t0 :: t1 :: ts).map (fun t => dispatchPred t (ts.getLastD t1)))[i]?
        = some (dispatchPred (ts.getLastD t1) (ts.getLastD t1)) := by
      rw [List.getElem?_map, hi]
      rfl
    have hconst : dispatchPred (ts.getLastD t1) (ts.getLastD t1)
        = Expr.ne (Expr.intImm (HType.int 32) 1) (Expr.intImm (HType.int 32) 0) :=
      (dispatchPred_eq_const_iff _ _).2 rfl
    have hle : ((t0 :: t1 :: ts).map (fun t => dispatchPred t (ts.getLastD t1))).findIdx ev ≤ i :=
      findIdx_le_of_getElem? ev _ i _ hpred (by rw [hconst]; exact hev)
    have : firstTrueIdx ev ((t0 :: t1 :: ts).map (fun t => dispatchPred t (ts.getLastD t1))) ≤ i :=
      hle
    simp only [List.length_cons] at hlen ⊢
    omega

/-- Witness for C10: with both targets equal to the baseline, the scan
selects an entry strictly before the trailing baseline entry. -/
theorem build_multitarget_dispatch_predicates_witness :
    firstTrueIdx (fun _ => true) ([tW, tW].map (fun t => dispatchPred t tW))
      < [tW, tW].length - 1 :=
  (build_multitarget_dispatch_predicates "f" tW tW [] pS wSample rfl).2.2
    (fun _ => true) rfl 0 rfl (by decide)

/-- Claim C6: the output driver performs the lowering-to-native step
exactly once when at least one of the object, assembly, bitcode or
llvm-assembly paths is non-empty and zero times otherwise (in particular
when only statement-dump paths are set), and every native emission in the
trace consumes that single lowering result. -/
theorem countLowerings_append (a b : List OutEvent) :
    countLowerings (a ++ b) = countLowerings a + countLowerings b :=
  List.countP_append _ _ _

theorem countLowerings_nil : countLowerings [] = 0 := rfl

theorem countLowerings_lower (m : Module) :
    countLowerings [OutEvent.lowerToLLVM m] = 1 := rfl

theorem countLowerings_ite_singleton (c : Prop) [Decidable c] (e : OutEvent)
    (he : isLowerEvent e = false) :
    countLowerings (if c then [e] else []) = 0 := by
  unfold countLowerings
  split <;> simp [List.countP_cons, he]

theorem countLowerings_ite_ite (c d : Prop) [Decidable c] [Decidable d] (e1 e2 : OutEvent)
    (h1 : isLowerEvent e1 = false) (h2 : isLowerEvent e2 = false) :
    countLowerings (if c then (if d then [e1] else [e2]) else []) = 0 := by
  unfold countLowerings
  split
  · split <;> simp [List.countP_cons, h1, h2]
  · simp

theorem mem_ite_or {c : Prop} [Decidable c] {l1 l2 : List OutEvent} {e : OutEvent}
    (h : e ∈ (if c then l1 else l2)) : e ∈ l1 ∨ e ∈ l2 := by
  split at h
  · exact Or.inl h
  · exact Or.inr h

theorem mem_ite_nil {c : Prop} [Decidable c] {l : List OutEvent} {e : OutEvent}
    (h : e ∈ (if c then l else [])) : e ∈ l := by
  rcases mem_ite_or h with h | h
  · exact h
  · simp at h

/-- Claim C6: the output driver performs the lowering-to-native step
exactly once when at least one of the object, assembly, bitcode or
llvm-assembly paths is non-empty and zero times otherwise (in particular
when only statement-dump paths are set), and every native emission in the
trace consumes that single lowering result. -/
theorem compile_outputs_single_lowering (m : Module) (o : Outputs) :
    countLowerings (compile_module_to_outputs m o)
      = (if o.object_name ≠ "" ∨ o.assembly_name ≠ "" ∨ o.bitcode_name ≠ ""
            ∨ o.llvm_assembly_name ≠ "" then 1 else 0)
    ∧ (∀ e ∈ compile_module_to_outputs m o, ∀ lm, loweredInput e = some lm →
        lm = compile_module_to_llvm_module m) := by
  constructor
  · unfold compile_module_to_outputs
    by_cases h : o.object_name ≠ "" ∨ o.assembly_name ≠ "" ∨ o.bitcode_name ≠ ""
        ∨ o.llvm_assembly_name ≠ ""
    · rw [if_pos h, if_pos h]
      simp only [countLowerings_append, countLowerings_lower, countLowerings_nil,
        countLowerings_ite_singleton, countLowerings_ite_ite, isLowerEvent]
    · rw [if_neg h, if_neg h]
      simp only [countLowerings_append, countLowerings_lower, countLowerings_nil,
        countLowerings_ite_singleton, countLowerings_ite_ite, isLowerEvent]
  · intro e he lm hl
    simp only [compile_module_to_outputs] at he
    rcases List.mem_append.1 he with h1 | h1
    swap
    · have hx := mem_ite_nil h1
      simp only [List.mem_singleton] at hx
      subst hx
      simp [loweredInput] at hl
    rcases List.mem_append.1 h1 with h2 | h2
    swap
    · have hx := mem_ite_nil h2
      simp only [List.mem_singleton] at hx
      subst hx
      simp [loweredInput] at hl
    rcases List.mem_append.1 h2 with h3 | h3
    swap
    · have hx := mem_ite_nil h3
      simp only [List.mem_singleton] at hx
      subst hx
      simp [loweredInput] at hl
    rcases List.mem_append.1 h3 with h4 | h4
    swap
    · have hx := mem_ite_nil h4
      simp only [List.mem_singleton] at hx
      subst hx
      simp [loweredInput] at hl
    have h5 := mem_ite_nil h4
    rcases List.mem_append.1 h5 with h6 | h6
    swap
    · have hx := mem_ite_nil h6
      simp only [List.mem_singleton] at hx
      subst hx
      simp only [loweredInput, Option.some.injEq] at hl
      exact hl.symm
    rcases List.mem_append.1 h6 with h7 | h7
    swap
    · have hx := mem_ite_nil h7
      simp only [List.mem_singleton] at hx
      subst hx
      simp only [loweredInput, Option.some.injEq] at hl
      exact hl.symm
    rcases List.mem_append.1 h7 with h8 | h8
    swap
    · rcases mem_ite_or (mem_ite_nil h8) with hx | hx <;>
        · simp only [List.mem_singleton] at hx
          subst hx
          simp only [loweredInput, Option.some.injEq] at hl
          exact hl.symm
    rcases List.mem_append.1 h8 with h9 | h9
    swap
    · rcases mem_ite_or (mem_ite_nil h9) with hx | hx <;>
        · simp only [List.mem_singleton] at hx
          subst hx
          simp only [loweredInput, Option.some.injEq] at hl
          exact hl.symm
    simp only [List.mem_singleton] at h9
    subst h9
    simp [loweredInput] at hl

/-- Witness for C6: requesting only an object file on a concrete Module
performs the lowering step exactly once. -/
theorem compile_outputs_single_lowering_witness :
    countLowerings (compile_module_to_outputs mW oW)
      = (if oW.object_name ≠ "" ∨ oW.assembly_name ≠ "" ∨ oW.bitcode_name ≠ ""
            ∨ oW.llvm_assembly_name ≠ "" then 1 else 0) :=
  (compile_outputs_single_lowering mW oW).1

end Halide
